import Mathlib

/-! Verification of the golf-market opportunity scoring core of
`streamlit_app.py`: dataset preparation (`load_data`, lines 25-42), the
opportunity scorer (`calculate_opportunity_score`, lines 54-71), the
threshold classification (`high_opportunity`, line 177), and the
app-level region filtering (lines 202-210).

Numeric columns are modelled as exact rationals.  `np.log1p` is a
transcendental library primitive, so it is modelled as an arbitrary
function parameter `log1p`; the theorems quantify over it and hence hold
in particular for the real logarithm.  Pandas `.round(1)` rounds half to
even (numpy rounding); this is modelled exactly by `roundHE` and
`round1`.  A float division by zero produces a non-finite value (NaN or
inf) rather than an exception; `scoreRecord` models the all-zero-weights
division of line 69 by returning `none`.  The per-factor `max`
denominators of lines 55-58 are modelled with plain rational division;
theorems that depend on those quotients assume the relevant column
maximum is positive, which is the regime in which rational division
agrees with float division (a zero maximum would give 0/0 = NaN in the
source). -/

/-- Pandas `Series.clip(lo, hi)`, elementwise. -/
def clip (x lo hi : ℚ) : ℚ := min (max x lo) hi

/-- Numpy rounding: round half to even. -/
def roundHE (z : ℚ) : ℤ :=
  if z - ⌊z⌋ < 1/2 then ⌊z⌋
  else if 1/2 < z - ⌊z⌋ then ⌊z⌋ + 1
  else if ⌊z⌋ % 2 = 0 then ⌊z⌋ else ⌊z⌋ + 1

/-- Pandas `.round(1)`: round to one decimal place, half to even. -/
def round1 (x : ℚ) : ℚ := (roundHE (10 * x) : ℚ) / 10

/-- Insert a value into an ascending list, keeping it ascending. -/
def insertAsc (x : ℚ) : List ℚ → List ℚ
  | [] => [x]
  | y :: ys => if x ≤ y then x :: y :: ys else y :: insertAsc x ys

/-- Sort a list of rationals ascending (the order pandas uses for
quantiles; on rationals any ascending sort produces the same list). -/
def sortAsc (l : List ℚ) : List ℚ := l.foldr insertAsc []

/-- Pandas `Series.quantile(0.75)` with the default linear
interpolation: with the values sorted ascending as `x_0 … x_(n-1)` and
`h = 0.75 * (n - 1)`, the result is
`x_i + (h - i) * (x_(i+1) - x_i)` where `i = floor h` (line 32 of the
source).  On an empty series pandas returns NaN; this model returns the
junk value 0 there and no theorem relies on that case. -/
def quantile75 (xs : List ℚ) : ℚ :=
  let s := sortAsc xs
  let n := s.length
  let i : ℕ := 3 * (n - 1) / 4
  let g : ℚ := 3 * ((n : ℚ) - 1) / 4 - (i : ℚ)
  s.getD i 0 + g * (s.getD (i + 1) (s.getD i 0) - s.getD i 0)

/-- Python `str.zfill(width)` (line 40 of the source): if the string is
already at least `width` long it is returned unchanged, otherwise it is
padded with zeros on the left, except that a leading sign character
stays in front of the inserted zeros. -/
def zfill (s : List Char) (w : Nat) : List Char :=
  if w ≤ s.length then s
  else
    match s with
    | [] => List.replicate w '0'
    | c :: rest =>
      if c = '-' ∨ c = '+' then c :: (List.replicate (w - (rest.length + 1)) '0' ++ rest)
      else List.replicate (w - (rest.length + 1)) '0' ++ (c :: rest)

/-- Whether a string (as a character list) starts with a sign character. -/
def hasSign : List Char → Bool
  | [] => false
  | c :: _ => c == '-' || c == '+'

/-- One row of `census.csv` as read at line 26, with the columns the
scoring core uses.  `region` may be missing (NaN) for some records;
`fips` is kept in the string form produced by `.astype(str)`. -/
structure RawRecord where
  state : String
  region : Option String
  population : ℚ
  median_income : ℚ
  pct_college : ℚ
  pct_white : ℚ
  median_age : ℚ
  pct_over_65 : ℚ
  fips : List Char
deriving DecidableEq

/-- A prepared row: the raw columns plus the derived columns added by
`load_data` (lines 29-40). -/
structure PrepRecord where
  state : String
  region : Option String
  population : ℚ
  median_income : ℚ
  pct_college : ℚ
  pct_white : ℚ
  median_age : ℚ
  pct_over_65 : ℚ
  diversity : ℚ
  affluent : Bool
  growth_demo_proxy : ℚ
  fips : List Char
deriving DecidableEq

/-- The per-row work of `load_data` (lines 29-40), given the
dataset-wide income threshold `thr` of line 32:
`diversity = 100 - pct_white`, `affluent = median_income >= thr`,
`growth_demo_proxy = ((50 - median_age).clip(0,20)/20*50 +
(100 - pct_over_65)/100*50).round(1)`, and `fips` zero-filled to five
characters. -/
def prepareRecord (thr : ℚ) (r : RawRecord) : PrepRecord :=
  { state := r.state
    region := r.region
    population := r.population
    median_income := r.median_income
    pct_college := r.pct_college
    pct_white := r.pct_white
    median_age := r.median_age
    pct_over_65 := r.pct_over_65
    diversity := 100 - r.pct_white
    affluent := decide (r.median_income ≥ thr)
    growth_demo_proxy :=
      round1 (clip (50 - r.median_age) 0 20 / 20 * 50 + (100 - r.pct_over_65) / 100 * 50)
    fips := zfill r.fips 5 }

/-- `load_data` (lines 25-42): the affluence threshold is the 75th
percentile of `median_income` over the whole raw table, computed once,
and every row is prepared against that one threshold. -/
def load_data (raw : List RawRecord) : List PrepRecord :=
  raw.map (prepareRecord (quantile75 (raw.map (fun r => r.median_income))))

/-- Pandas `Series.max()` over a column of a nonempty table.  (On an
empty table pandas yields NaN; 0 is returned here and no theorem relies
on that case.) -/
def colMax (f : PrepRecord → ℚ) : List PrepRecord → ℚ
  | [] => 0
  | r :: rs => rs.foldl (fun a x => max a (f x)) (f r)

/-- The four column maxima the scorer uses as denominators
(lines 55-58). -/
structure Maxima where
  income : ℚ
  college : ℚ
  diversity : ℚ
  population : ℚ
deriving DecidableEq

/-- The column maxima of the table passed to the scorer. -/
def maxima (df : List PrepRecord) : Maxima :=
  { income := colMax (fun r => r.median_income) df
    college := colMax (fun r => r.pct_college) df
    diversity := colMax (fun r => r.diversity) df
    population := colMax (fun r => r.population) df }

/-- Line 55: `(df['median_income'] / df['median_income'].max()).clip(0, 1)`. -/
def income_score (mx : Maxima) (r : PrepRecord) : ℚ :=
  clip (r.median_income / mx.income) 0 1

/-- Line 56: `(df['pct_college'] / df['pct_college'].max()).clip(0, 1)`. -/
def education_score (mx : Maxima) (r : PrepRecord) : ℚ :=
  clip (r.pct_college / mx.college) 0 1

/-- Line 57: `(df['diversity'] / df['diversity'].max()).clip(0, 1)`. -/
def diversity_score (mx : Maxima) (r : PrepRecord) : ℚ :=
  clip (r.diversity / mx.diversity) 0 1

/-- Line 58: `(np.log1p(df['population']) / np.log1p(df['population'].max())).clip(0, 1)`,
with `np.log1p` abstracted as the parameter `log1p`. -/
def size_score (log1p : ℚ → ℚ) (mx : Maxima) (r : PrepRecord) : ℚ :=
  clip (log1p r.population / log1p mx.population) 0 1

/-- Line 59: `(50 - df['median_age']).clip(0, 20) / 20`. -/
def age_score (r : PrepRecord) : ℚ :=
  clip (50 - r.median_age) 0 20 / 20

/-- The `score` expression of lines 63-69, before the final rounding:
the weighted factor sum divided by `total_weight`, times 100. -/
def scoreRaw (log1p : ℚ → ℚ) (mx : Maxima) (wi we wd ws wa : ℚ) (r : PrepRecord) : ℚ :=
  (income_score mx r * wi + education_score mx r * we + diversity_score mx r * wd +
      size_score log1p mx r * ws + age_score r * wa) /
    (wi + we + wd + ws + wa) * 100

/-- One row of the value returned at line 71: `score.round(1)`.  When
`total_weight = 0` the float division of line 69 yields a non-finite
value (NaN or inf) for every row, modelled as `none`. -/
def scoreRecord (log1p : ℚ → ℚ) (mx : Maxima) (wi we wd ws wa : ℚ) (r : PrepRecord) :
    Option ℚ :=
  if wi + we + wd + ws + wa = 0 then none
  else some (round1 (scoreRaw log1p mx wi we wd ws wa r))

/-- `calculate_opportunity_score(df, w_income, w_education, w_diversity,
w_size, w_age)` (lines 54-71): every `max` denominator is taken over the
table `df` passed in. -/
def calculate_opportunity_score (log1p : ℚ → ℚ) (df : List PrepRecord)
    (wi we wd ws wa : ℚ) : List (Option ℚ) :=
  df.map (scoreRecord log1p (maxima df) wi we wd ws wa)

/-- Line 177: `(df['median_income'] >= income_threshold) &
(df['growth_demo_proxy'] >= growth_demo_min)`. -/
def high_opportunity (it gm : ℚ) (r : PrepRecord) : Bool :=
  decide (r.median_income ≥ it) && decide (r.growth_demo_proxy ≥ gm)

/-- A prepared row together with the two parameter-dependent columns the
app adds before filtering (lines 177 and 202). -/
structure ScoredRecord where
  prep : PrepRecord
  high_opportunity : Bool
  opportunity_score : Option ℚ
deriving DecidableEq

/-- The table the app builds before any filtering: `load_data` output
with `high_opportunity` (line 177) and `opportunity_score` (line 202)
attached.  Line 202 passes the FULL prepared table `df` to
`calculate_opportunity_score`, so every score is normalized against the
maxima of the full table. -/
def appTable (log1p : ℚ → ℚ) (raw : List RawRecord) (it gm wi we wd ws wa : ℚ) :
    List ScoredRecord :=
  let df := load_data raw
  df.map (fun r =>
    { prep := r
      high_opportunity := high_opportunity it gm r
      opportunity_score := scoreRecord log1p (maxima df) wi we wd ws wa r })

/-- `Series.isin(selected_regions)` on the `region` column: a missing
region never matches. -/
def regionMem (reg : Option String) (sel : List String) : Bool :=
  match reg with
  | some x => sel.contains x
  | none => false

/-- Lines 208-210: `filtered = df.copy()` then
`if selected_regions: filtered = filtered[filtered['region'].isin(selected_regions)]`.
An empty selection is falsy in Python, so the filter is skipped
entirely. -/
def applyRegionFilter (regionOf : ScoredRecord → Option String)
    (df : List ScoredRecord) (sel : List String) : List ScoredRecord :=
  if sel.isEmpty then df
  else df.filter (fun a => regionMem (regionOf a) sel)

/-- The filtered table the analyst sees (lines 202-210): scores computed
on the full table at line 202, region filter applied afterwards. -/
def filteredTable (log1p : ℚ → ℚ) (raw : List RawRecord)
    (it gm wi we wd ws wa : ℚ) (sel : List String) : List ScoredRecord :=
  applyRegionFilter (fun s => s.prep.region)
    (appTable log1p raw it gm wi we wd ws wa) sel

/-- Modelled from the spec: the spec asserts that every `max(...)`
denominator is taken over the currently filtered record set, i.e. that
the scorer is run on the filtered subset.  This definition follows those
words (score the region-filtered prepared table), to be compared with
the code's `filteredTable`, which scores first and filters afterwards. -/
def scoresRenormalizedToView (log1p : ℚ → ℚ) (raw : List RawRecord)
    (wi we wd ws wa : ℚ) (sel : List String) : List (Option ℚ) :=
  let df := load_data raw
  let view := if sel.isEmpty then df
    else df.filter (fun r => regionMem r.region sel)
  calculate_opportunity_score log1p view wi we wd ws wa

/-- Number of rows of `df` whose unrounded composite (the `score`
variable of lines 63-69) is strictly greater than that of `r`; the
record's rank in descending order is one more than this. -/
def numStrictlyAboveRaw (log1p : ℚ → ℚ) (df : List PrepRecord)
    (wi we wd ws wa : ℚ) (r : PrepRecord) : ℕ :=
  df.countP (fun x =>
    decide (scoreRaw log1p (maxima df) wi we wd ws wa r <
      scoreRaw log1p (maxima df) wi we wd ws wa x))

/-- Number of rows of `df` whose returned (1-decimal rounded, line 71)
composite is strictly greater than that of `r`; when `total_weight ≠ 0`
this is the rank datum of the rendered ranking. -/
def numStrictlyAboveRounded (log1p : ℚ → ℚ) (df : List PrepRecord)
    (wi we wd ws wa : ℚ) (r : PrepRecord) : ℕ :=
  df.countP (fun x =>
    decide (round1 (scoreRaw log1p (maxima df) wi we wd ws wa r) <
      round1 (scoreRaw log1p (maxima df) wi we wd ws wa x)))

/-! Concrete example data used by witnesses and counterexamples. -/

/-- A single prepared county row (all derived fields consistent with its
raw fields under a threshold of 100000). -/
def pEx : PrepRecord :=
  { state := "Massachusetts", region := some "Northeast", population := 1000
    median_income := 100000, pct_college := 40, pct_white := 50
    median_age := 40, pct_over_65 := 20, diversity := 50, affluent := true
    growth_demo_proxy := 65, fips := ['2', '5', '0', '0', '1'] }

/-- A one-row prepared table. -/
def dfEx : List PrepRecord := [pEx]

/-- A raw county row. -/
def rawEx : RawRecord :=
  { state := "Massachusetts", region := some "Northeast", population := 1000
    median_income := 100000, pct_college := 40, pct_white := 50
    median_age := 40, pct_over_65 := 20, fips := ['2', '5', '0', '0', '1'] }

/-- A raw row in the "East" region with the higher income of the
two-row table `[rawA, rawB]`. -/
def rawA : RawRecord :=
  { state := "New York", region := some "East", population := 1000
    median_income := 100000, pct_college := 40, pct_white := 50
    median_age := 40, pct_over_65 := 20, fips := ['1'] }

/-- A raw row in the "West" region with half the income of `rawA`. -/
def rawB : RawRecord :=
  { state := "Arizona", region := some "West", population := 1000
    median_income := 50000, pct_college := 20, pct_white := 50
    median_age := 40, pct_over_65 := 20, fips := ['2'] }

/-- The prepared form of `rawB` inside `load_data [rawA, rawB]` (the
income threshold there is 87500, so `rawB` is not affluent). -/
def prepB : PrepRecord :=
  { state := "Arizona", region := some "West", population := 1000
    median_income := 50000, pct_college := 20, pct_white := 50
    median_age := 40, pct_over_65 := 20, diversity := 50, affluent := false
    growth_demo_proxy := 65, fips := ['0', '0', '0', '0', '2'] }

/-- The scored form of `prepB` in the app table of `[rawA, rawB]` with
thresholds 0, 0 and weights (100, 0, 0, 0, 0): the income factor is
50000 / 100000 = 1/2, so the score is 50. -/
def sB : ScoredRecord :=
  { prep := prepB, high_opportunity := true, opportunity_score := some 50 }

/-- The maximum-income row of the three-row table `df3`. -/
def recM : PrepRecord :=
  { state := "Alpha", region := some "R", population := 1000
    median_income := 100000, pct_college := 10, pct_white := 50
    median_age := 40, pct_over_65 := 20, diversity := 50, affluent := true
    growth_demo_proxy := 65, fips := ['0', '0', '0', '1', '1'] }

/-- A row with 9/10 of the maximum income and slightly more college
share than `recM`. -/
def recR : PrepRecord :=
  { state := "Beta", region := some "R", population := 1000
    median_income := 90000, pct_college := 501/50, pct_white := 50
    median_age := 40, pct_over_65 := 20, diversity := 50, affluent := true
    growth_demo_proxy := 65, fips := ['0', '0', '0', '1', '2'] }

/-- A low-income row carrying the maximum college share of `df3`. -/
def recZ : PrepRecord :=
  { state := "Gamma", region := some "R", population := 1000
    median_income := 10000, pct_college := 100, pct_white := 50
    median_age := 40, pct_over_65 := 20, diversity := 50, affluent := false
    growth_demo_proxy := 65, fips := ['0', '0', '0', '1', '3'] }

/-- A three-row prepared table on which a tiny increase of the income
weight demotes the maximum-income row in the rounded ranking. -/
def df3 : List PrepRecord := [recM, recR, recZ]

/-- A raw row whose `fips` string starts with a sign character. -/
def rawNeg : RawRecord :=
  { state := "Nowhere", region := none, population := 0
    median_income := 0, pct_college := 0, pct_white := 0
    median_age := 0, pct_over_65 := 0, fips := ['-', '1'] }

/-- The prepared form of `rawA` inside `load_data [rawA, rawB]`. -/
def prepA : PrepRecord :=
  { state := "New York", region := some "East", population := 1000
    median_income := 100000, pct_college := 40, pct_white := 50
    median_age := 40, pct_over_65 := 20, diversity := 50, affluent := true
    growth_demo_proxy := 65, fips := ['0', '0', '0', '0', '1'] }

/-! Helper lemmas. -/

theorem clip_le (x lo hi : ℚ) : clip x lo hi ≤ hi := min_le_right _ _

theorem le_clip (x lo hi : ℚ) (h : lo ≤ hi) : lo ≤ clip x lo hi :=
  le_min (le_max_right _ _) h

theorem roundHE_nonneg (z : ℚ) (h : 0 ≤ z) : 0 ≤ roundHE z := by
  unfold roundHE
  have hf : 0 ≤ ⌊z⌋ := Int.floor_nonneg.mpr h
  split_ifs <;> omega

theorem roundHE_le (z : ℚ) (n : ℤ) (h : z ≤ (n : ℚ)) : roundHE z ≤ n := by
  unfold roundHE
  have hf : ⌊z⌋ ≤ n := by
    have h2 := Int.floor_le_floor h
    simpa using h2
  have hfl : (⌊z⌋ : ℚ) ≤ z := Int.floor_le z
  split_ifs with h1 h2 h3
  · exact hf
  · have hlt : (⌊z⌋ : ℚ) < (n : ℚ) := by linarith
    have : ⌊z⌋ < n := by exact_mod_cast hlt
    omega
  · exact hf
  · have hge : 1/2 ≤ z - ⌊z⌋ := le_of_not_lt h1
    have hlt : (⌊z⌋ : ℚ) < (n : ℚ) := by linarith
    have : ⌊z⌋ < n := by exact_mod_cast hlt
    omega

theorem round1_bounds (x : ℚ) (h0 : 0 ≤ x) (h1 : x ≤ 100) :
    0 ≤ round1 x ∧ round1 x ≤ 100 := by
  unfold round1
  constructor
  · have ha : (0 : ℤ) ≤ roundHE (10 * x) := roundHE_nonneg _ (by linarith)
    have hb : (0 : ℚ) ≤ (roundHE (10 * x) : ℚ) := by exact_mod_cast ha
    linarith
  · have ha : roundHE (10 * x) ≤ (1000 : ℤ) := roundHE_le _ 1000 (by push_cast; linarith)
    have hb : ((roundHE (10 * x)) : ℚ) ≤ 1000 := by exact_mod_cast ha
    linarith

theorem scoreRaw_bounds (log1p : ℚ → ℚ) (mx : Maxima) (wi we wd ws wa : ℚ)
    (r : PrepRecord)
    (h1 : 0 ≤ wi) (h2 : 0 ≤ we) (h3 : 0 ≤ wd) (h4 : 0 ≤ ws) (h5 : 0 ≤ wa)
    (ht : 0 < wi + we + wd + ws + wa) :
    0 ≤ scoreRaw log1p mx wi we wd ws wa r ∧
      scoreRaw log1p mx wi we wd ws wa r ≤ 100 := by
  have hI0 : 0 ≤ income_score mx r := le_clip _ _ _ (by norm_num)
  have hI1 : income_score mx r ≤ 1 := clip_le _ _ _
  have hE0 : 0 ≤ education_score mx r := le_clip _ _ _ (by norm_num)
  have hE1 : education_score mx r ≤ 1 := clip_le _ _ _
  have hD0 : 0 ≤ diversity_score mx r := le_clip _ _ _ (by norm_num)
  have hD1 : diversity_score mx r ≤ 1 := clip_le _ _ _
  have hS0 : 0 ≤ size_score log1p mx r := le_clip _ _ _ (by norm_num)
  have hS1 : size_score log1p mx r ≤ 1 := clip_le _ _ _
  have hA0 : 0 ≤ age_score r := by
    unfold age_score
    have := le_clip (50 - r.median_age) 0 20 (by norm_num)
    positivity
  have hA1 : age_score r ≤ 1 := by
    unfold age_score
    have := clip_le (50 - r.median_age) 0 20
    linarith
  have hnum0 : 0 ≤ income_score mx r * wi + education_score mx r * we +
      diversity_score mx r * wd + size_score log1p mx r * ws + age_score r * wa := by
    have := mul_nonneg hI0 h1
    have := mul_nonneg hE0 h2
    have := mul_nonneg hD0 h3
    have := mul_nonneg hS0 h4
    have := mul_nonneg hA0 h5
    linarith
  have hnumT : income_score mx r * wi + education_score mx r * we +
      diversity_score mx r * wd + size_score log1p mx r * ws + age_score r * wa ≤
      wi + we + wd + ws + wa := by
    have := mul_le_mul_of_nonneg_right hI1 h1
    have := mul_le_mul_of_nonneg_right hE1 h2
    have := mul_le_mul_of_nonneg_right hD1 h3
    have := mul_le_mul_of_nonneg_right hS1 h4
    have := mul_le_mul_of_nonneg_right hA1 h5
    linarith
  unfold scoreRaw
  constructor
  · have hq : 0 ≤ (income_score mx r * wi + education_score mx r * we +
        diversity_score mx r * wd + size_score log1p mx r * ws + age_score r * wa) /
        (wi + we + wd + ws + wa) := div_nonneg hnum0 (le_of_lt ht)
    linarith
  · have hq : (income_score mx r * wi + education_score mx r * we +
        diversity_score mx r * wd + size_score log1p mx r * ws + age_score r * wa) /
        (wi + we + wd + ws + wa) ≤ 1 := (div_le_one ht).mpr hnumT
    nlinarith

/-- C1: for every record of the table and every weight set with all five
weights non-negative and positive total weight, the composite
`opportunity_score` returned by the scorer (weighted mean of the five
clipped factors, times 100, rounded to one decimal) is defined and lies
in the closed interval [0, 100].  The column maxima of the table are
assumed positive: that is the regime in which the rational model of the
factor divisions of lines 55-58 agrees with float division. -/
theorem C1_score_in_range (log1p : ℚ → ℚ) (df : List PrepRecord)
    (wi we wd ws wa : ℚ) (r : PrepRecord) (hr : r ∈ df)
    (h1 : 0 ≤ wi) (h2 : 0 ≤ we) (h3 : 0 ≤ wd) (h4 : 0 ≤ ws) (h5 : 0 ≤ wa)
    (ht : 0 < wi + we + wd + ws + wa)
    (hmI : 0 < (maxima df).income) (hmC : 0 < (maxima df).college)
    (hmD : 0 < (maxima df).diversity) (hmP : 0 < log1p (maxima df).population) :
    (scoreRecord log1p (maxima df) wi we wd ws wa r).isSome = true ∧
    0 ≤ (scoreRecord log1p (maxima df) wi we wd ws wa r).getD 0 ∧
    (scoreRecord log1p (maxima df) wi we wd ws wa r).getD 0 ≤ 100 := by
  have htne : wi + we + wd + ws + wa ≠ 0 := ne_of_gt ht
  have hb := scoreRaw_bounds log1p (maxima df) wi we wd ws wa r h1 h2 h3 h4 h5 ht
  have hrb := round1_bounds _ hb.1 hb.2
  simp only [scoreRecord, if_neg htne, Option.isSome_some, Option.getD_some]
  exact ⟨trivial, hrb.1, hrb.2⟩

/-- Witness for C1 at a concrete one-row table, the default weights of
the app sidebar, and `log1p` instantiated to the identity. -/
theorem C1_score_in_range_witness :
    ((0:ℚ) < 35 + 25 + 15 + 15 + 10) ∧
    (0:ℚ) < (maxima dfEx).income ∧
    (scoreRecord id (maxima dfEx) 35 25 15 15 10 pEx).isSome = true ∧
    0 ≤ (scoreRecord id (maxima dfEx) 35 25 15 15 10 pEx).getD 0 ∧
    (scoreRecord id (maxima dfEx) 35 25 15 15 10 pEx).getD 0 ≤ 100 := by
  refine ⟨by norm_num, by norm_num [maxima, colMax, dfEx, pEx], ?_⟩
  exact C1_score_in_range id dfEx 35 25 15 15 10 pEx (by simp [dfEx])
    (by norm_num) (by norm_num) (by norm_num) (by norm_num) (by norm_num)
    (by norm_num)
    (by norm_num [maxima, colMax, dfEx, pEx])
    (by norm_num [maxima, colMax, dfEx, pEx])
    (by norm_num [maxima, colMax, dfEx, pEx])
    (by norm_num [maxima, colMax, dfEx, pEx])

/-- C3 counterexample: with all five weights zero the scorer propagates
the undefined float result of the division by `total_weight = 0`
(modelled as `none`, i.e. NaN/inf) into its output instead of producing
a well-defined zero-or-null composite score. -/
theorem C3_all_zero_weights_cex :
    calculate_opportunity_score id dfEx 0 0 0 0 0 = [none] := by
  norm_num [calculate_opportunity_score, scoreRecord, dfEx]

/-- C3 (amended): with all weights zero the scorer raises no exception,
and deterministically yields the undefined (non-finite) value for every
row: the division by zero is propagated into the output, so callers must
guard the all-zero-weights case themselves. -/
theorem C3_all_zero_weights_undefined (log1p : ℚ → ℚ) (df : List PrepRecord)
    (wi we wd ws wa : ℚ) (h : wi + we + wd + ws + wa = 0) :
    calculate_opportunity_score log1p df wi we wd ws wa =
      df.map (fun _ => none) := by
  have hfun : scoreRecord log1p (maxima df) wi we wd ws wa = fun _ => none :=
    funext (fun r => by simp [scoreRecord, h])
  simp [calculate_opportunity_score, hfun]

/-- Witness for C3 (amended) at a concrete one-row table. -/
theorem C3_all_zero_weights_undefined_witness :
    ((0:ℚ) + 0 + 0 + 0 + 0 = 0) ∧
    calculate_opportunity_score id dfEx 0 0 0 0 0 = List.map (fun _ => none) dfEx := by
  exact ⟨by norm_num, C3_all_zero_weights_undefined id dfEx 0 0 0 0 0 (by norm_num)⟩

/-- C4: `high_opportunity` is true exactly when `median_income` is at or
above the income threshold and `growth_demo_proxy` is at or above the
growth-demographic minimum; in particular exact boundary values on both
thresholds classify as true (line 177). -/
theorem C4_high_opportunity_iff (it gm : ℚ) (r : PrepRecord) :
    (high_opportunity it gm r = true ↔
      (r.median_income ≥ it ∧ r.growth_demo_proxy ≥ gm)) ∧
    (r.median_income = it → r.growth_demo_proxy = gm →
      high_opportunity it gm r = true) := by
  constructor
  · simp [high_opportunity]
  · intro hinc hgrow
    simp [high_opportunity, hinc, hgrow]

/-- Witness for C4 at a record sitting exactly on both thresholds. -/
theorem C4_high_opportunity_iff_witness :
    pEx.median_income = 100000 ∧ pEx.growth_demo_proxy = 65 ∧
    high_opportunity 100000 65 pEx = true := by
  refine ⟨rfl, rfl, ?_⟩
  exact (C4_high_opportunity_iff 100000 65 pEx).2 rfl rfl

/-- C5: the growth-demographic score of dataset preparation (lines
36-37) equals `clamp(50 - median_age, 0, 20) / 20 * 50 +
(100 - pct_over_65) / 100 * 50` rounded to one decimal place, and under
the precondition `0 ≤ pct_over_65 ≤ 100` this value lies in [0, 100]. -/
theorem C5_growth_demo_formula (thr : ℚ) (r : RawRecord) :
    (prepareRecord thr r).growth_demo_proxy =
      round1 (clip (50 - r.median_age) 0 20 / 20 * 50 +
        (100 - r.pct_over_65) / 100 * 50) ∧
    (0 ≤ r.pct_over_65 → r.pct_over_65 ≤ 100 →
      0 ≤ (prepareRecord thr r).growth_demo_proxy ∧
        (prepareRecord thr r).growth_demo_proxy ≤ 100) := by
  refine ⟨rfl, fun h0 h1 => ?_⟩
  have t1a : 0 ≤ clip (50 - r.median_age) 0 20 := le_clip _ _ _ (by norm_num)
  have t1b : clip (50 - r.median_age) 0 20 ≤ 20 := clip_le _ _ _
  have v0 : 0 ≤ clip (50 - r.median_age) 0 20 / 20 * 50 +
      (100 - r.pct_over_65) / 100 * 50 := by
    have ha : 0 ≤ clip (50 - r.median_age) 0 20 / 20 * 50 := by positivity
    have hb : 0 ≤ (100 - r.pct_over_65) / 100 * 50 := by
      have : 0 ≤ (100 - r.pct_over_65) / 100 := div_nonneg (by linarith) (by norm_num)
      linarith
    linarith
  have v1 : clip (50 - r.median_age) 0 20 / 20 * 50 +
      (100 - r.pct_over_65) / 100 * 50 ≤ 100 := by
    have ha : clip (50 - r.median_age) 0 20 / 20 * 50 ≤ 50 := by linarith
    have hb : (100 - r.pct_over_65) / 100 * 50 ≤ 50 := by
      have : (100 - r.pct_over_65) / 100 ≤ 1 := by
        rw [div_le_one (by norm_num : (0:ℚ) < 100)]
        linarith
      linarith
    linarith
  exact round1_bounds _ v0 v1

/-- Witness for C5 at a concrete raw row with `pct_over_65 = 20`. -/
theorem C5_growth_demo_formula_witness :
    ((0:ℚ) ≤ rawEx.pct_over_65) ∧ (rawEx.pct_over_65 ≤ 100) ∧
    0 ≤ (prepareRecord 0 rawEx).growth_demo_proxy ∧
    (prepareRecord 0 rawEx).growth_demo_proxy ≤ 100 := by
  have h := (C5_growth_demo_formula 0 rawEx).2 (by norm_num [rawEx]) (by norm_num [rawEx])
  exact ⟨by norm_num [rawEx], by norm_num [rawEx], h.1, h.2⟩

/-- C8: the scorer does not mutate its input table.  The body of
`calculate_opportunity_score` (lines 54-71) contains no assignment into
`df`; in the embedding the scored table is a new structure layered over
the prepared rows, and projecting the prepared columns back out of the
scored table recovers the prepared dataset unchanged (for any parameter
set). -/
theorem C8_input_table_unchanged (log1p : ℚ → ℚ) (raw : List RawRecord)
    (it gm wi we wd ws wa : ℚ) :
    (appTable log1p raw it gm wi we wd ws wa).map (fun s => s.prep) =
      load_data raw := by
  simp only [appTable, List.map_map]
  exact List.map_id _

/-- C9 (implicit): with an empty region selection the filter branch of
lines 209-210 is skipped (an empty Python list is falsy), so the
displayed table is the full dataset; by contrast, applying the
`isin`-filter with an empty selection would produce the empty table. -/
theorem C9_empty_selection_keeps_all (log1p : ℚ → ℚ) (raw : List RawRecord)
    (it gm wi we wd ws wa : ℚ) :
    filteredTable log1p raw it gm wi we wd ws wa [] =
      appTable log1p raw it gm wi we wd ws wa ∧
    (appTable log1p raw it gm wi we wd ws wa).filter
      (fun s => regionMem s.prep.region []) = [] := by
  constructor
  · simp [filteredTable, applyRegionFilter]
  · apply List.filter_eq_nil_iff.mpr
    intro a _
    cases h : a.prep.region <;> simp [regionMem, h]

/-- Every record of the filtered view is a record of the full scored
table: its prepared row is in `load_data raw`, its flag comes from
`high_opportunity`, and its score was computed with the maxima of the
FULL prepared table (line 202 runs before the filter of lines 208-210). -/
theorem mem_filteredTable {log1p : ℚ → ℚ} {raw : List RawRecord}
    {it gm wi we wd ws wa : ℚ} {sel : List String} {s : ScoredRecord}
    (hs : s ∈ filteredTable log1p raw it gm wi we wd ws wa sel) :
    ∃ p ∈ load_data raw,
      s = { prep := p
            high_opportunity := high_opportunity it gm p
            opportunity_score :=
              scoreRecord log1p (maxima (load_data raw)) wi we wd ws wa p } := by
  have happ : s ∈ appTable log1p raw it gm wi we wd ws wa := by
    by_cases hsel : sel.isEmpty
    · rw [filteredTable, applyRegionFilter, if_pos hsel] at hs
      exact hs
    · rw [filteredTable, applyRegionFilter, if_neg hsel] at hs
      exact (List.mem_filter.mp hs).1
  rcases List.mem_map.mp happ with ⟨p, hp, hps⟩
  exact ⟨p, hp, hps.symm⟩

/-- C2 (amended): the scores carried by the filtered/displayed table are
NOT renormalized to the view: each record's `opportunity_score` equals
the score computed with every `max(...)` denominator taken over the FULL
prepared dataset, whatever region subset is selected (line 202 scores
the full table, lines 208-210 filter afterwards). -/
theorem C2_filtered_scores_use_full_maxima (log1p : ℚ → ℚ)
    (raw : List RawRecord) (it gm wi we wd ws wa : ℚ) (sel : List String)
    (s : ScoredRecord)
    (hs : s ∈ filteredTable log1p raw it gm wi we wd ws wa sel) :
    s.opportunity_score =
      scoreRecord log1p (maxima (load_data raw)) wi we wd ws wa s.prep := by
  rcases mem_filteredTable hs with ⟨p, _, rfl⟩
  rfl

/-- C6: a record (in any filtered view) is flagged `affluent` exactly
when its `median_income` is at or above the 75th percentile of
`median_income` over the ENTIRE loaded dataset; the threshold is the one
computed at load time (line 32), so region filtering never changes which
records carry the flag. -/
theorem C6_affluent_fixed_at_load (log1p : ℚ → ℚ) (raw : List RawRecord)
    (it gm wi we wd ws wa : ℚ) (sel : List String) (s : ScoredRecord)
    (hs : s ∈ filteredTable log1p raw it gm wi we wd ws wa sel) :
    s.prep.affluent = true ↔
      s.prep.median_income ≥ quantile75 (raw.map (fun r => r.median_income)) := by
  rcases mem_filteredTable hs with ⟨p, hp, rfl⟩
  rcases List.mem_map.mp (by simpa [load_data] using hp) with ⟨r0, _, hr0⟩
  subst hr0
  simp [prepareRecord]

/-- Evaluation of `load_data` on the two-row table: the income
threshold is `quantile75 [100000, 50000] = 87500`, so `rawA` is affluent
and `rawB` is not. -/
theorem load_data_AB : load_data [rawA, rawB] = [prepA, prepB] := by
  norm_num [load_data, prepareRecord, quantile75, sortAsc, insertAsc, rawA, rawB,
    List.getD, prepA, prepB, zfill, round1, roundHE, clip, decide_eq_true_eq,
    decide_eq_false_iff_not]
  decide

/-- Evaluation of the app pipeline on the two-row table, thresholds 0,
weights (100, 0, 0, 0, 0), region selection ["West"]: only `rawB`
survives the filter, and its score is the one computed at line 202 with
the FULL table maxima (income factor 50000 / 100000 = 1/2, score 50). -/
theorem filteredTable_AB :
    filteredTable id [rawA, rawB] 0 0 100 0 0 0 0 ["West"] = [sB] := by
  norm_num [filteredTable, appTable, applyRegionFilter, regionMem, load_data,
    prepareRecord, quantile75, sortAsc, insertAsc, rawA, rawB, List.getD,
    prepB, sB, zfill, round1, roundHE, clip, maxima, colMax, scoreRecord,
    scoreRaw, income_score, education_score, diversity_score, size_score,
    age_score, high_opportunity, decide_eq_true_eq, decide_eq_false_iff_not,
    List.filter]
  decide

/-- C2 counterexample: on the two-row table filtered to ["West"], the
displayed score of the sole visible record is 50 (normalized against the
full-table maximum income 100000), while scoring the filtered subset
itself — the renormalization the claim asserts — would give 100.  The
view is therefore NOT renormalized against the subset maxima. -/
theorem C2_renormalization_cex :
    (filteredTable id [rawA, rawB] 0 0 100 0 0 0 0 ["West"]).map
      (fun s => s.opportunity_score) = [some 50] ∧
    scoresRenormalizedToView id [rawA, rawB] 100 0 0 0 0 ["West"] = [some 100] ∧
    some (50:ℚ) ≠ some (100:ℚ) := by
  refine ⟨?_, ?_, by decide⟩
  · rw [filteredTable_AB]
    decide
  · have hview : List.filter (fun r => regionMem r.region ["West"]) [prepA, prepB] =
        [prepB] := by decide
    rw [scoresRenormalizedToView]
    simp only [load_data_AB, List.isEmpty_cons, Bool.false_eq_true, if_false, hview]
    norm_num [calculate_opportunity_score, scoreRecord, scoreRaw, income_score,
      education_score, diversity_score, size_score, age_score, clip, maxima,
      colMax, round1, roundHE, prepB]

/-- Witness for C2 (amended) at the concrete filtered two-row table. -/
theorem C2_filtered_scores_use_full_maxima_witness :
    sB ∈ filteredTable id [rawA, rawB] 0 0 100 0 0 0 0 ["West"] ∧
    sB.opportunity_score =
      scoreRecord id (maxima (load_data [rawA, rawB])) 100 0 0 0 0 sB.prep := by
  have hmem : sB ∈ filteredTable id [rawA, rawB] 0 0 100 0 0 0 0 ["West"] := by
    rw [filteredTable_AB]
    exact List.mem_singleton.mpr rfl
  exact ⟨hmem,
    C2_filtered_scores_use_full_maxima id [rawA, rawB] 0 0 100 0 0 0 0 ["West"] sB hmem⟩

/-- Witness for C6 at the concrete filtered two-row table: `sB` is in
the "West" view and is correctly not affluent (50000 < 87500, the
quartile of the full dataset). -/
theorem C6_affluent_fixed_at_load_witness :
    sB ∈ filteredTable id [rawA, rawB] 0 0 100 0 0 0 0 ["West"] ∧
    (sB.prep.affluent = true ↔
      sB.prep.median_income ≥
        quantile75 ([rawA, rawB].map (fun r => r.median_income))) := by
  have hmem : sB ∈ filteredTable id [rawA, rawB] 0 0 100 0 0 0 0 ["West"] := by
    rw [filteredTable_AB]
    exact List.mem_singleton.mpr rfl
  exact ⟨hmem,
    C6_affluent_fixed_at_load id [rawA, rawB] 0 0 100 0 0 0 0 ["West"] sB hmem⟩

/-- Dividing by the same positive total and scaling by 100 preserves
order of numerators. -/
theorem div_mul_hundred_le (T : ℚ) (hT : 0 < T) (a b : ℚ) :
    a / T * 100 ≤ b / T * 100 ↔ a ≤ b := by
  rw [div_mul_eq_mul_div, div_mul_eq_mul_div, div_le_div_iff_of_pos_right hT,
    mul_le_mul_right (by norm_num : (0:ℚ) < 100)]

/-- The income factor of a record whose `median_income` attains the
(positive) column maximum is exactly 1. -/
theorem income_score_of_max (df : List PrepRecord) (r : PrepRecord)
    (hmax : r.median_income = (maxima df).income)
    (hpos : 0 < (maxima df).income) :
    income_score (maxima df) r = 1 := by
  unfold income_score
  rw [hmax, div_self (ne_of_gt hpos)]
  unfold clip
  rw [max_eq_left (by norm_num : (0:ℚ) ≤ 1), min_self]

/-- Pairwise preservation: if the unrounded composite of the
maximum-income record `r` is at least that of `x` at income weight
`wi`, it remains so at any larger income weight `wi2` (other weights
fixed).  The numerator difference grows by `(1 - income factor of x) *
(wi2 - wi) ≥ 0` while the common denominator stays positive. -/
theorem scoreRaw_pair (log1p : ℚ → ℚ) (mx : Maxima) (wi wi2 we wd ws wa : ℚ)
    (r x : PrepRecord) (hr1 : income_score mx r = 1) (hw : wi ≤ wi2)
    (ht : 0 < wi + we + wd + ws + wa)
    (hle : scoreRaw log1p mx wi we wd ws wa x ≤ scoreRaw log1p mx wi we wd ws wa r) :
    scoreRaw log1p mx wi2 we wd ws wa x ≤ scoreRaw log1p mx wi2 we wd ws wa r := by
  have ht2 : 0 < wi2 + we + wd + ws + wa := by linarith
  have hx1 : income_score mx x ≤ 1 := clip_le _ _ _
  unfold scoreRaw at hle ⊢
  rw [hr1] at hle ⊢
  rw [div_mul_hundred_le _ ht] at hle
  rw [div_mul_hundred_le _ ht2]
  nlinarith [mul_nonneg (sub_nonneg.mpr hx1) (sub_nonneg.mpr hw)]

/-- C7 (amended): for the unrounded composite (the `score` variable of
lines 63-69, before the 1-decimal rounding of line 71), increasing
`w_income` while holding the other four weights fixed never increases
the number of records strictly above the maximum-income record, i.e.
never worsens its rank.  With the rounding of line 71 applied this
fails: rounding can turn a hidden deficit into a strict overtake (see
the counterexample). -/
theorem C7_rank_monotone_unrounded (log1p : ℚ → ℚ) (df : List PrepRecord)
    (wi wi2 we wd ws wa : ℚ) (r : PrepRecord) (hr : r ∈ df)
    (hmax : r.median_income = colMax (fun x => x.median_income) df)
    (hpos : 0 < colMax (fun x => x.median_income) df)
    (hw : wi ≤ wi2) (ht : 0 < wi + we + wd + ws + wa) :
    numStrictlyAboveRaw log1p df wi2 we wd ws wa r ≤
      numStrictlyAboveRaw log1p df wi we wd ws wa r := by
  have hr1 : income_score (maxima df) r = 1 := income_score_of_max df r hmax hpos
  unfold numStrictlyAboveRaw
  apply List.countP_mono_left
  intro x hx
  simp only [decide_eq_true_eq]
  intro hlt
  by_contra hnot
  rw [not_lt] at hnot
  exact absurd (scoreRaw_pair log1p (maxima df) wi wi2 we wd ws wa r x hr1 hw ht hnot)
    (not_le.mpr hlt)

/-- Witness for C7 (amended) on the concrete three-row table `df3`,
raising the income weight from 0 to 1 with education weight 10. -/
theorem C7_rank_monotone_unrounded_witness :
    recM ∈ df3 ∧
    recM.median_income = colMax (fun x => x.median_income) df3 ∧
    ((0:ℚ) < colMax (fun x => x.median_income) df3) ∧
    ((0:ℚ) ≤ 1) ∧ ((0:ℚ) < 0 + 10 + 0 + 0 + 0) ∧
    numStrictlyAboveRaw id df3 1 10 0 0 0 recM ≤
      numStrictlyAboveRaw id df3 0 10 0 0 0 recM := by
  have h1 : recM ∈ df3 := by simp [df3]
  have h2 : recM.median_income = colMax (fun x => x.median_income) df3 := by
    norm_num [df3, recM, recR, recZ, colMax]
  have h3 : (0:ℚ) < colMax (fun x => x.median_income) df3 := by
    norm_num [df3, recM, recR, recZ, colMax]
  exact ⟨h1, h2, h3, by norm_num, by norm_num,
    C7_rank_monotone_unrounded id df3 0 1 10 0 0 0 recM h1 h2 h3 (by norm_num)
      (by norm_num)⟩

/-- C7 counterexample (to the claim over the scores the scorer actually
returns, i.e. after the 1-decimal rounding of line 71): on `df3` with
education weight 10 and the other three weights 0, raising `w_income`
from 0 to 1/250 moves the maximum-income record `recM` from one record
strictly above it (rank 2) to two records strictly above it (rank 3):
its rounded score stays 10.0 while `recR` goes from 10.0 to 10.1.
Increasing `w_income` thus CAN decrease the rank of the
maximum-income record. -/
theorem C7_rank_rounding_cex :
    recM.median_income = colMax (fun x => x.median_income) df3 ∧
    ((0:ℚ) < 1/250) ∧
    numStrictlyAboveRounded id df3 0 10 0 0 0 recM = 1 ∧
    numStrictlyAboveRounded id df3 (1/250) 10 0 0 0 recM = 2 := by
  refine ⟨by norm_num [df3, recM, recR, recZ, colMax], by norm_num, ?_, ?_⟩
  · norm_num [numStrictlyAboveRounded, df3, recM, recR, recZ, maxima, colMax,
      scoreRaw, income_score, education_score, diversity_score, size_score,
      age_score, clip, round1, roundHE, List.countP_cons, decide_eq_true_eq,
      -Int.self_sub_floor]
  · norm_num [numStrictlyAboveRounded, df3, recM, recR, recZ, maxima, colMax,
      scoreRaw, income_score, education_score, diversity_score, size_score,
      age_score, clip, round1, roundHE, List.countP_cons, decide_eq_true_eq,
      -Int.self_sub_floor]

/-- C10 (amended): `zfill` at width 5 never truncates — the output
length is `max 5 (input length)` and inputs of length at least 5 are
returned unchanged — and for every input that does NOT start with a
sign character the output is the original characters with zeros
prepended.  (For a sign-initial input Python inserts the zeros after
the sign instead of prepending them; see the counterexample.) -/
theorem C10_zfill_pads_left (s : List Char) :
    (zfill s 5).length = max 5 s.length ∧
    (5 ≤ s.length → zfill s 5 = s) ∧
    (hasSign s = false → zfill s 5 = List.replicate (5 - s.length) '0' ++ s) := by
  by_cases h : 5 ≤ s.length
  · rw [zfill.eq_def, if_pos h]
    refine ⟨(Nat.max_eq_right h).symm, fun _ => rfl, fun _ => ?_⟩
    rw [Nat.sub_eq_zero_of_le h, List.replicate_zero, List.nil_append]
  · push_neg at h
    cases s with
    | nil => simp [zfill]
    | cons c rest =>
      have hnle : ¬ (5 ≤ (c :: rest).length) := by
        simp only [List.length_cons] at h ⊢
        omega
      by_cases hsgn : c = '-' ∨ c = '+'
      · refine ⟨?_, fun hc => absurd hc hnle, fun hns => ?_⟩
        · rw [zfill.eq_def, if_neg hnle]
          simp only [if_pos hsgn, List.length_cons, List.length_append,
            List.length_replicate]
          omega
        · exfalso
          simp only [hasSign, Bool.or_eq_false_iff, beq_eq_false_iff_ne] at hns
          rcases hsgn with h1 | h1
          · exact hns.1 h1
          · exact hns.2 h1
      · refine ⟨?_, fun hc => absurd hc hnle, fun _ => ?_⟩
        · rw [zfill.eq_def, if_neg hnle]
          simp only [if_neg hsgn, List.length_cons, List.length_append,
            List.length_replicate]
          omega
        · rw [zfill.eq_def, if_neg hnle]
          simp only [if_neg hsgn, List.length_cons]

/-- Witness for C10 (amended) at the sign-free two-character input
"42": three zeros are prepended. -/
theorem C10_zfill_pads_left_witness :
    hasSign ['4', '2'] = false ∧
    (zfill ['4', '2'] 5).length = max 5 2 ∧
    zfill ['4', '2'] 5 = List.replicate 3 '0' ++ ['4', '2'] := by
  exact ⟨by decide, (C10_zfill_pads_left ['4', '2']).1,
    (C10_zfill_pads_left ['4', '2']).2.2 (by decide)⟩

/-- C10 counterexample: for the sign-initial fips string "-1" the
normalization of line 40 produces "-0001" — the zeros are inserted
after the sign — which is not the original characters with zeros
prepended ("000-1"). -/
theorem C10_zfill_sign_cex :
    (load_data [rawNeg]).map (fun p => p.fips) = [['-', '0', '0', '0', '1']] ∧
    (['-', '0', '0', '0', '1'] : List Char) ≠
      List.replicate (5 - 2) '0' ++ ['-', '1'] := by
  exact ⟨by decide, by decide⟩
